import Mathlib

/-!
Verification development for the `heavensabove` package
(`src/heavensabove/__init__.py`).

The development shallowly embeds the temporal-reconstruction core of the
package: `_make_timestamp` (year/day rollover resolution of summary
fragments), the summary resolution chain inside `Satellite.passes`, and
the detail-phase enrichment `SatellitePass.get_details` together with the
small text-field grammar (azimuth regex, digit stripping, brightness
handling) and the `Position` / `SatellitePass` accessors.

Python `datetime` values (always UTC in this code) are embedded as a
six-field structure of naturals together with a proleptic-Gregorian
second count used for every comparison and for the `timedelta`
arithmetic the source performs.
-/

set_option maxRecDepth 8000

namespace HeavensAbove

/-! ### Calendar arithmetic (semantics of Python `datetime`/`timedelta`) -/

/-- Gregorian leap-year rule, as used by Python `datetime`. -/
def isLeap (y : Nat) : Bool :=
  (y % 4 == 0 && y % 100 != 0) || y % 400 == 0

/-- Number of days in a month (months numbered 1–12). -/
def daysInMonth (y m : Nat) : Nat :=
  if m = 2 then (if isLeap y then 29 else 28)
  else if m = 4 ∨ m = 6 ∨ m = 9 ∨ m = 11 then 30
  else 31

/-- Cumulative days before month `m` in a non-leap year (months 1–12). -/
def daysBeforeMonthBase : Nat → Nat
  | 1 => 0
  | 2 => 31
  | 3 => 59
  | 4 => 90
  | 5 => 120
  | 6 => 151
  | 7 => 181
  | 8 => 212
  | 9 => 243
  | 10 => 273
  | 11 => 304
  | 12 => 334
  | _ => 0

/-- Cumulative days before month `m` of year `y`. -/
def daysBeforeMonth (y m : Nat) : Nat :=
  daysBeforeMonthBase m + (if 3 ≤ m ∧ isLeap y = true then 1 else 0)

/-- Number of days in year `y`. -/
def daysInYear (y : Nat) : Nat :=
  if isLeap y then 366 else 365

/-- Number of leap years `x` with `1 ≤ x ≤ y`. -/
def leapsBefore (y : Nat) : Nat :=
  y / 4 + y / 400 - y / 100

/-- Days elapsed in years `1 … y-1`, i.e. the day number of Jan 1 of
year `y` counted from Jan 1 of year 1 (the `datetime` epoch). -/
def daysBeforeYear (y : Nat) : Nat :=
  365 * (y - 1) + leapsBefore (y - 1)

/-- Embedding of a (UTC, timezone-aware) Python `datetime`. -/
structure DateTime where
  year : Nat
  month : Nat
  day : Nat
  hour : Nat
  minute : Nat
  second : Nat
deriving DecidableEq, Repr

/-- Day count of the date portion. -/
def DateTime.toDays (dt : DateTime) : Nat :=
  daysBeforeYear dt.year + daysBeforeMonth dt.year dt.month + (dt.day - 1)

/-- Second count of a `DateTime`; two datetimes compare (and subtract)
exactly as their `toSecs` values do. -/
def DateTime.toSecs (dt : DateTime) : Nat :=
  dt.toDays * 86400 + dt.hour * 3600 + dt.minute * 60 + dt.second

/-- The field ranges Python `datetime` enforces at construction. -/
def DateTime.Valid (dt : DateTime) : Prop :=
  1 ≤ dt.year ∧ 1 ≤ dt.month ∧ dt.month ≤ 12 ∧
  1 ≤ dt.day ∧ dt.day ≤ daysInMonth dt.year dt.month ∧
  dt.hour ≤ 23 ∧ dt.minute ≤ 59 ∧ dt.second ≤ 59

instance (dt : DateTime) : Decidable dt.Valid := by
  unfold DateTime.Valid; infer_instance

/-- `dt + timedelta(days=1)` in field form. -/
def addDay (dt : DateTime) : DateTime :=
  if dt.day + 1 ≤ daysInMonth dt.year dt.month then { dt with day := dt.day + 1 }
  else if dt.month + 1 ≤ 12 then { dt with month := dt.month + 1, day := 1 }
  else { dt with year := dt.year + 1, month := 1, day := 1 }

/-- `dt - timedelta(days=1)` in field form. -/
def subDay (dt : DateTime) : DateTime :=
  if 2 ≤ dt.day then { dt with day := dt.day - 1 }
  else if 2 ≤ dt.month then
    { dt with month := dt.month - 1, day := daysInMonth dt.year (dt.month - 1) }
  else { dt with year := dt.year - 1, month := 12, day := 31 }

/-- `dt.replace(year=dt.year + 1)`: Python raises `ValueError` when the
day does not exist in the incremented year (Feb 29), hence `Option`. -/
def yearIncr (dt : DateTime) : Option DateTime :=
  if dt.day ≤ daysInMonth (dt.year + 1) dt.month then
    some { dt with year := dt.year + 1 }
  else none

/-- `dt.replace(hour=h, minute=mi, second=s)` (ranges validated by the
caller before use, mirroring Python's `ValueError` on bad ranges). -/
def replaceTime (dt : DateTime) (h mi s : Nat) : DateTime :=
  { dt with hour := h, minute := mi, second := s }

/-! ### Fragment parsers (semantics of `strptime`, `int`, `float`) -/

/-- Numeric value of a digit string. -/
def digitsToNat (cs : List Char) : Nat :=
  cs.foldl (fun a c => a * 10 + (c.toNat - 48)) 0

/-- `%d` of `strptime`: one or two digits, value 1–31. -/
def parseDay (s : String) : Option Nat :=
  if s.toList ≠ [] ∧ s.toList.length ≤ 2 ∧ (∀ c ∈ s.toList, c.isDigit = true) then
    if 1 ≤ digitsToNat s.toList ∧ digitsToNat s.toList ≤ 31 then
      some (digitsToNat s.toList)
    else none
  else none

/-- Split a character list at every colon (the semantics of Python
`s.split(':')` on the character level). -/
def splitColons : List Char → List (List Char)
  | [] => [[]]
  | c :: t =>
    if c = ':' then [] :: splitColons t
    else
      match splitColons t with
      | g :: gs => (c :: g) :: gs
      | [] => [[c]]

/-- One `%H`/`%M`/`%S` group: one or two digits (range checked after). -/
def parse2Digits (cs : List Char) : Option Nat :=
  if cs ≠ [] ∧ cs.length ≤ 2 ∧ (∀ c ∈ cs, c.isDigit = true) then
    some (digitsToNat cs)
  else none

/-- `%H:%M:%S` of `strptime` followed by `datetime` range validation:
exactly three colon-separated groups; hour ≤ 23, minute ≤ 59,
second ≤ 59.  A two-group `HH:MM` string therefore fails. -/
def parseTime (s : String) : Option (Nat × Nat × Nat) :=
  match splitColons s.toList with
  | [hs, ms, ss] =>
    match parse2Digits hs, parse2Digits ms, parse2Digits ss with
    | some h, some mi, some sec =>
      if h ≤ 23 ∧ mi ≤ 59 ∧ sec ≤ 59 then some (h, mi, sec) else none
    | _, _, _ => none
  | _ => none

/-- The twelve English month abbreviations recognized by `%b`. -/
def monthAbbrevs : List (String × Nat) :=
  [("Jan", 1), ("Feb", 2), ("Mar", 3), ("Apr", 4), ("May", 5), ("Jun", 6),
   ("Jul", 7), ("Aug", 8), ("Sep", 9), ("Oct", 10), ("Nov", 11), ("Dec", 12)]

/-- `%b` of `strptime`: the capitalized English month abbreviations. -/
def monthFromAbbrev (s : String) : Option Nat :=
  (monthAbbrevs.find? (fun p => p.1 == s)).map Prod.snd

/-- Python `float(s)` on the simple decimal forms this program meets:
optional sign, integer digits, optional fraction; at least one digit. -/
def parseDecimal (s : String) : Option Rat :=
  let cs := s.toList
  let signed : Rat × List Char :=
    match cs with
    | '-' :: t => (-1, t)
    | '+' :: t => (1, t)
    | _ => (1, cs)
  let intPart := signed.2.takeWhile Char.isDigit
  let rest := signed.2.dropWhile Char.isDigit
  match rest with
  | [] =>
    if intPart = [] then none
    else some (signed.1 * (digitsToNat intPart : Rat))
  | '.' :: frac =>
    if (∀ c ∈ frac, c.isDigit = true) ∧ (intPart ≠ [] ∨ frac ≠ []) then
      some (signed.1 *
        ((digitsToNat intPart : Rat) + (digitsToNat frac : Rat) / (10 ^ frac.length)))
    else none
  | _ => none

/-! ### `_make_timestamp` (source lines 35–75) -/

/-- The branch structure of `_make_timestamp` after the initial
`strptime` (source lines 62–75): with an anchor (`newer_than`), add one
day when strictly older than the anchor; otherwise (also when an anchor
is present but not newer than the candidate!) add one year when the
candidate is more than one day older than `now`.
`ts < now - timedelta(days=1)` is rendered additively as
`ts.toSecs + 86400 < now.toSecs`. -/
def resolveCore (now ts : DateTime) (newerThan : Option DateTime) : Option DateTime :=
  match newerThan with
  | some anchor =>
    if ts.toSecs < anchor.toSecs then some (addDay ts)
    else if ts.toSecs + 86400 < now.toSecs then yearIncr ts
    else some ts
  | none =>
    if ts.toSecs + 86400 < now.toSecs then yearIncr ts
    else some ts

/-- `_make_timestamp(day, month, timestamp, newer_than)` with the
ambient clock `_utc_now()` made explicit as `now`.  The naive candidate
is built from `now.year`, the parsed month abbreviation, the parsed
1–2 digit day (validated against the month, as `datetime` construction
does) and the parsed `HH:MM:SS` time. -/
def makeTimestamp (now : DateTime) (day month time : String)
    (newerThan : Option DateTime) : Option DateTime :=
  match monthFromAbbrev month, parseDay day, parseTime time with
  | some mo, some d, some (h, mi, s) =>
    if d ≤ daysInMonth now.year mo then
      resolveCore now ⟨now.year, mo, d, h, mi, s⟩ newerThan
    else none
  | _, _, _ => none

/-- The summary resolution chain of `Satellite.passes`
(source lines 308, 325, 341): `start` with no anchor, `highest`
anchored on `start`, `end` anchored on `highest`. -/
def summaryChain (now : DateTime) (day month startT highestT endT : String) :
    Option (DateTime × DateTime × DateTime) :=
  match makeTimestamp now day month startT none with
  | none => none
  | some s =>
    match makeTimestamp now day month highestT (some s) with
    | none => none
    | some h =>
      match makeTimestamp now day month endT (some h) with
      | none => none
      | some e => some (s, h, e)

/-! ### Field grammar of `get_details` (source lines 536–597) -/

/-- `re.sub(r'[^0-9]', "", s)` — the distance cells: every character
that is not a decimal digit is removed (including minus signs and
decimal points). -/
def stripNonDigits (s : String) : String :=
  String.mk (s.toList.filter Char.isDigit)

/-- `re.sub(r'[^0-9\-\.]', "", s)` — the Sun-altitude cells: every
character that is not a digit, minus sign or decimal point is
removed. -/
def stripNonNumeric (s : String) : String :=
  String.mk (s.toList.filter (fun c => c.isDigit || c = '-' || c = '.'))

/-- A `\w` word character (ASCII portion, as met in compass labels). -/
def isWordChar (c : Char) : Bool :=
  c.isAlphanum || c = '_'

/-- Attempt to match `(\d+)° \((\w+)\)` anchored at the head of the
character list, returning the two groups. -/
def matchDirAt (cs : List Char) : Option (String × String) :=
  let ds := cs.takeWhile Char.isDigit
  if ds = [] then none
  else
    match cs.dropWhile Char.isDigit with
    | '°' :: ' ' :: '(' :: rest =>
      let ws := rest.takeWhile isWordChar
      if ws = [] then none
      else
        match rest.dropWhile isWordChar with
        | ')' :: _ => some (String.mk ds, String.mk ws)
        | _ => none
    | _ => none

/-- `re.search(r'(\d+)° \((\w+)\)', s)`: try the anchored match at each
successive start position (leftmost match).  For this pattern greedy
matching with no backtracking is exact. -/
def searchDirAux : List Char → Option (String × String)
  | [] => none
  | c :: t =>
    match matchDirAt (c :: t) with
    | some r => some r
    | none => searchDirAux t

/-- Azimuth extraction on a raw cell string. -/
def searchDir (s : String) : Option (String × String) :=
  searchDirAux s.toList

/-- Python `int()` on one colon-separated clock group: a nonempty
digit string. -/
def parseClockNat (cs : List Char) : Option Nat :=
  if cs ≠ [] ∧ (∀ c ∈ cs, c.isDigit = true) then some (digitsToNat cs) else none

/-- The time cells of the detail table: `text.split(':')`, indexing of
`[0] [1] [2]` (`IndexError` when fewer than three groups; extra groups
are ignored), `int()` of each group, and the range validation performed
by `datetime.replace`. -/
def parseClock (s : String) : Option (Nat × Nat × Nat) :=
  match splitColons s.toList with
  | hs :: ms :: ss :: _ =>
    match parseClockNat hs, parseClockNat ms, parseClockNat ss with
    | some h, some mi, some sec =>
      if h ≤ 23 ∧ mi ≤ 59 ∧ sec ≤ 59 then some (h, mi, sec) else none
    | _, _, _ => none
  | _ => none

/-! ### `Position`, `SatellitePass` and the detail-phase enrichment -/

/-- Embedding of the `Position` class.  The four extended attributes
are exactly what `get_details` assigns: raw strings (the code never
converts them), absent (`None`) before enrichment. -/
structure Position where
  timestamp : DateTime
  altitude : Nat
  direction : String
  direction_degrees : Option String
  distance : Option String
  brightness : Option String
  sun_altitude : Option String
deriving DecidableEq, Repr

/-- Phase-1 construction: `Position.__init__` sets only timestamp,
altitude and direction; the extended attributes stay `None`. -/
def Position.mkSummary (ts : DateTime) (alt : Nat) (dir : String) : Position :=
  ⟨ts, alt, dir, none, none, none, none⟩

/-- One row of the 5-row detail table, by the cell indices the code
reads: `[1]` time, `[3]` azimuth text, `[4]` distance text,
`[5]` brightness text, `[6]` Sun-altitude text. -/
structure DetailRow where
  time : String
  dir : String
  dist : String
  bright : String
  sunAlt : String
deriving DecidableEq, Repr

/-- The fields of `SatellitePass` the temporal core manipulates.
`brightness` holds the summary brightness cell after the `"-" ↦ None`
substitution; `rises`/`sets` are `None` until `get_details` runs. -/
structure Pass where
  brightness : Option String
  rises : Option Position
  starts : Position
  highest : Position
  ends : Position
  sets : Option Position
deriving DecidableEq, Repr

/-- The summary brightness cell handling in `Satellite.passes`
(source lines 294–298): a literal `"-"` becomes `None`. -/
def summaryBrightness (s : String) : Option String :=
  if s = "-" then none else some s

/-- The accessor pattern `if self._x: return float(self._x)` shared by
`Position.brightness`, `Position.sun_altitude` and
`SatellitePass.brightness`: a falsy value (`None` or the empty string)
yields `None`; otherwise `float()` is applied and may raise
(`Except.error`). -/
def floatAccessor (o : Option String) : Except Unit (Option Rat) :=
  match o with
  | none => Except.ok none
  | some s =>
    if s = "" then Except.ok none
    else
      match parseDecimal s with
      | some q => Except.ok (some q)
      | none => Except.error ()

deriving instance DecidableEq for Except

/-- The four attribute assignments `get_details` performs on an
existing position (direction degrees, distance, brightness, Sun
altitude) — timestamp, altitude and direction are untouched. -/
def enrichPosition (p : Position) (deg : String) (row : DetailRow) : Position :=
  { p with
    direction_degrees := some deg,
    distance := some (stripNonDigits row.dist),
    brightness := some row.bright,
    sun_altitude := some (stripNonNumeric row.sunAlt) }

/-- A freshly constructed rises/sets position (altitude 0) together
with its four attribute assignments. -/
def newDetailPosition (ts : DateTime) (deg dir : String) (row : DetailRow) : Position :=
  ⟨ts, 0, dir, some deg, some (stripNonDigits row.dist), some row.bright,
    some (stripNonNumeric row.sunAlt)⟩

/-- `SatellitePass.get_details` (source lines 478–597), after the five
table rows have been delivered by the out-of-scope HTML collaborator.
The steps run in source order and mutate `self` as they go; a parse
failure aborts (second component `false`) and the first component is
the state at that moment — mutations already performed are kept, since
the code has no rollback.

Order of operations, as in the source: parse and range-validate the
rises and sets clock texts; seed both candidates from the date of
`starts.timestamp` via `replace`; add a day to the rises candidate when
it exceeds `starts`, subtract a day from the sets candidate when it is
below `ends`; then, row by row (rises, starts, highest, ends, sets),
match the azimuth regex and assign the new/enriched positions. -/
def getDetails (p : Pass) (rowRises rowStarts rowHighest rowEnds rowSets : DetailRow) :
    Pass × Bool :=
  match parseClock rowRises.time with
  | none => (p, false)
  | some (rh, rm, rs) =>
    match parseClock rowSets.time with
    | none => (p, false)
    | some (sh, sm, ss) =>
      let risesCand := replaceTime p.starts.timestamp rh rm rs
      let setsCand := replaceTime p.starts.timestamp sh sm ss
      let risesTs :=
        if p.starts.timestamp.toSecs < risesCand.toSecs then addDay risesCand else risesCand
      let setsTs :=
        if setsCand.toSecs < p.ends.timestamp.toSecs then subDay setsCand else setsCand
      match searchDir rowRises.dir with
      | none => (p, false)
      | some (rdeg, rdir) =>
        let p1 := { p with rises := some (newDetailPosition risesTs rdeg rdir rowRises) }
        match searchDir rowStarts.dir with
        | none => (p1, false)
        | some (sdeg, _) =>
          let p2 := { p1 with starts := enrichPosition p1.starts sdeg rowStarts }
          match searchDir rowHighest.dir with
          | none => (p2, false)
          | some (hdeg, _) =>
            let p3 := { p2 with highest := enrichPosition p2.highest hdeg rowHighest }
            match searchDir rowEnds.dir with
            | none => (p3, false)
            | some (edeg, _) =>
              let p4 := { p3 with ends := enrichPosition p3.ends edeg rowEnds }
              match searchDir rowSets.dir with
              | none => (p4, false)
              | some (setdeg, setdir) =>
                ({ p4 with sets := some (newDetailPosition setsTs setdeg setdir rowSets) },
                  true)

/-- The distance rule as the specification words it (for comparison
with the source's digit-only strip): keep digits, minus signs and
decimal points, then parse the remainder as a number. -/
def specDistanceRule (s : String) : Option Rat :=
  parseDecimal (stripNonNumeric s)

/-! ### Concrete fixtures used by witnesses and counterexamples -/

/-- A phase-1 pass as `Satellite.passes` builds it (summary row of
2024-06-10, staying within one evening). -/
def samplePass : Pass :=
  { brightness := summaryBrightness "-2.3",
    rises := none,
    starts := Position.mkSummary ⟨2024, 6, 10, 21, 0, 0⟩ 10 "SSW",
    highest := Position.mkSummary ⟨2024, 6, 10, 21, 3, 30⟩ 45 "S",
    ends := Position.mkSummary ⟨2024, 6, 10, 21, 6, 45⟩ 10 "ESE",
    sets := none }

/-- A phase-1 pass whose summary chain crossed midnight just before
`starts` (starts at 00:02, rise at 23:58 the previous evening). -/
def midnightPass : Pass :=
  { brightness := none,
    rises := none,
    starts := Position.mkSummary ⟨2024, 6, 10, 0, 2, 0⟩ 10 "N",
    highest := Position.mkSummary ⟨2024, 6, 10, 0, 4, 0⟩ 40 "NE",
    ends := Position.mkSummary ⟨2024, 6, 10, 0, 6, 0⟩ 10 "E",
    sets := none }

/-- A well-formed detail-table row with the given time cell. -/
def sampleRow (t : String) : DetailRow :=
  ⟨t, "123° (NNE)", "1,234 km", "-", "-12.3°"⟩

/-- A detail-table row whose azimuth cell matches no `(\d+)° \((\w+)\)`
pattern, so its parse fails. -/
def badRow : DetailRow :=
  ⟨"21:02:00", "no azimuth here", "1,234 km", "-", "-12.3°"⟩

/-! ### Calendar lemmas -/

theorem leapsBefore_succ (z : Nat) :
    leapsBefore (z + 1) = leapsBefore z + (if isLeap (z + 1) then 1 else 0) := by
  unfold leapsBefore isLeap
  simp only [Bool.or_eq_true, Bool.and_eq_true, beq_iff_eq, bne_iff_ne, ne_eq]
  split <;> omega

theorem daysBeforeYear_succ (y : Nat) (hy : 1 ≤ y) :
    daysBeforeYear (y + 1) = daysBeforeYear y + daysInYear y := by
  obtain ⟨z, rfl⟩ : ∃ z, y = z + 1 := ⟨y - 1, by omega⟩
  unfold daysBeforeYear daysInYear
  simp only [Nat.add_sub_cancel]
  rw [leapsBefore_succ z]
  split <;> omega

theorem daysInMonth_ge (y m : Nat) : 28 ≤ daysInMonth y m := by
  unfold daysInMonth
  split_ifs <;> omega

theorem daysInMonth_le (y m : Nat) : daysInMonth y m ≤ 31 := by
  unfold daysInMonth
  split_ifs <;> omega

theorem daysBeforeMonth_succ (y m : Nat) (h1 : 1 ≤ m) (h2 : m ≤ 11) :
    daysBeforeMonth y (m + 1) = daysBeforeMonth y m + daysInMonth y m := by
  interval_cases m <;>
    by_cases hl : isLeap y = true <;>
      simp [daysBeforeMonth, daysBeforeMonthBase, daysInMonth, hl]

theorem daysBeforeMonth_twelve (y : Nat) :
    daysBeforeMonth y 12 + 31 = daysInYear y := by
  by_cases hl : isLeap y = true <;>
    simp [daysBeforeMonth, daysBeforeMonthBase, daysInYear, hl]

theorem toSecs_addDay (dt : DateTime) (hy : 1 ≤ dt.year)
    (hm1 : 1 ≤ dt.month) (hm2 : dt.month ≤ 12)
    (hd1 : 1 ≤ dt.day) (hd2 : dt.day ≤ daysInMonth dt.year dt.month) :
    (addDay dt).toSecs = dt.toSecs + 86400 := by
  unfold addDay
  split_ifs with h1 h2
  · simp only [DateTime.toSecs, DateTime.toDays]
    omega
  · have hrec := daysBeforeMonth_succ dt.year dt.month hm1 (by omega)
    have hge := daysInMonth_ge dt.year dt.month
    simp only [DateTime.toSecs, DateTime.toDays]
    omega
  · have hm : dt.month = 12 := by omega
    have hd31 : daysInMonth dt.year 12 = 31 := by simp [daysInMonth]
    have hy2 := daysBeforeYear_succ dt.year hy
    have h12 := daysBeforeMonth_twelve dt.year
    have hb1 : daysBeforeMonth dt.year 1 = 0 := by simp [daysBeforeMonth, daysBeforeMonthBase]
    have hb1' : daysBeforeMonth (dt.year + 1) 1 = 0 := by
      simp [daysBeforeMonth, daysBeforeMonthBase]
    simp only [DateTime.toSecs, DateTime.toDays, hm] at *
    omega

theorem toSecs_subDay (dt : DateTime) (hy : 2 ≤ dt.year)
    (hm1 : 1 ≤ dt.month) (hm2 : dt.month ≤ 12)
    (hd1 : 1 ≤ dt.day) (_hd2 : dt.day ≤ daysInMonth dt.year dt.month) :
    (subDay dt).toSecs + 86400 = dt.toSecs := by
  unfold subDay
  split_ifs with h1 h2
  · simp only [DateTime.toSecs, DateTime.toDays]
    omega
  · have hd : dt.day = 1 := by omega
    have hrec := daysBeforeMonth_succ dt.year (dt.month - 1) (by omega) (by omega)
    have hge := daysInMonth_ge dt.year (dt.month - 1)
    have hmm : dt.month - 1 + 1 = dt.month := by omega
    rw [hmm] at hrec
    simp only [DateTime.toSecs, DateTime.toDays]
    omega
  · have hmo : dt.month = 1 := by omega
    have hd : dt.day = 1 := by omega
    have hy2 : daysBeforeYear (dt.year - 1 + 1) =
        daysBeforeYear (dt.year - 1) + daysInYear (dt.year - 1) :=
      daysBeforeYear_succ (dt.year - 1) (by omega)
    have hyy : dt.year - 1 + 1 = dt.year := by omega
    rw [hyy] at hy2
    have h12 := daysBeforeMonth_twelve (dt.year - 1)
    have hb1 : daysBeforeMonth dt.year 1 = 0 := by simp [daysBeforeMonth, daysBeforeMonthBase]
    simp only [DateTime.toSecs, DateTime.toDays, hmo] at *
    omega

theorem toSecs_yearIncr (dt dt' : DateTime) (hy : 1 ≤ dt.year)
    (_hm1 : 1 ≤ dt.month) (_hm2 : dt.month ≤ 12)
    (h : yearIncr dt = some dt') : dt.toSecs < dt'.toSecs := by
  unfold yearIncr at h
  split_ifs at h
  injection h with h
  subst h
  have hy2 := daysBeforeYear_succ dt.year hy
  have hiy : 365 ≤ daysInYear dt.year := by unfold daysInYear; split_ifs <;> omega
  have hb : daysBeforeMonth dt.year dt.month ≤ daysBeforeMonth (dt.year + 1) dt.month + 1 := by
    unfold daysBeforeMonth
    split_ifs <;> omega
  simp only [DateTime.toSecs, DateTime.toDays]
  omega

/-! ### Parser lemmas -/

theorem monthFromAbbrev_range {s : String} {mo : Nat}
    (h : monthFromAbbrev s = some mo) : 1 ≤ mo ∧ mo ≤ 12 := by
  unfold monthFromAbbrev at h
  cases hf : monthAbbrevs.find? (fun p => p.1 == s) with
  | none => rw [hf] at h; exact Option.noConfusion h
  | some p =>
    rw [hf] at h
    injection h with h
    have hmem := List.mem_of_find?_eq_some hf
    have hall : ∀ x ∈ monthAbbrevs, 1 ≤ x.2 ∧ x.2 ≤ 12 := by decide
    subst h
    exact hall p hmem

theorem parseDay_range {s : String} {d : Nat}
    (h : parseDay s = some d) : 1 ≤ d ∧ d ≤ 31 := by
  unfold parseDay at h
  split_ifs at h with h1 h2
  all_goals
    first
      | exact Option.noConfusion h
      | (injection h with h; omega)

theorem parseTime_range {s : String} {h mi sec : Nat}
    (ht : parseTime s = some (h, mi, sec)) : h ≤ 23 ∧ mi ≤ 59 ∧ sec ≤ 59 := by
  unfold parseTime at ht
  repeat' split at ht
  all_goals
    first
      | exact Option.noConfusion ht
      | simp_all

theorem parseClock_range {s : String} {h mi sec : Nat}
    (ht : parseClock s = some (h, mi, sec)) : h ≤ 23 ∧ mi ≤ 59 ∧ sec ≤ 59 := by
  unfold parseClock at ht
  repeat' split at ht
  all_goals
    first
      | exact Option.noConfusion ht
      | simp_all

theorem makeTimestamp_eq {now : DateTime} {day month time : String} {mo d h mi s : Nat}
    (hm : monthFromAbbrev month = some mo) (hd : parseDay day = some d)
    (ht : parseTime time = some (h, mi, s)) (nt : Option DateTime) :
    makeTimestamp now day month time nt =
      if d ≤ daysInMonth now.year mo then
        resolveCore now ⟨now.year, mo, d, h, mi, s⟩ nt
      else none := by
  unfold makeTimestamp
  rw [hm, hd, ht]

theorem makeTimestamp_none_month {now : DateTime} {day month time : String}
    {nt : Option DateTime} (hm : monthFromAbbrev month = none) :
    makeTimestamp now day month time nt = none := by
  unfold makeTimestamp
  rw [hm]

theorem makeTimestamp_none_time {now : DateTime} {day month time : String}
    {nt : Option DateTime} (ht : parseTime time = none) :
    makeTimestamp now day month time nt = none := by
  unfold makeTimestamp
  rw [ht]
  cases monthFromAbbrev month <;> cases parseDay day <;> rfl

/-! ### Claim theorems -/

/-- C3: with no anchor, `resolve` adds one year to the constructed
timestamp exactly when it is strictly earlier than `reference_now`
minus one day, and otherwise returns it unchanged; with
`reference_now = 2024-06-10T00:00:00Z` the fragment
`(day="01", month="Jun", time="00:00:00")` resolves to year 2025 and
`(day="15", month="Jun", time="09:00:00")` resolves to
`2024-06-15T09:00:00Z`. -/
theorem C3_year_rollover :
    (∀ (now : DateTime) (day month time : String) (mo d h mi s : Nat) (r : DateTime),
      monthFromAbbrev month = some mo → parseDay day = some d →
      parseTime time = some (h, mi, s) →
      makeTimestamp now day month time none = some r →
      (((DateTime.mk now.year mo d h mi s).toSecs + 86400 < now.toSecs ∧
          r = ⟨now.year + 1, mo, d, h, mi, s⟩) ∨
        (¬ ((DateTime.mk now.year mo d h mi s).toSecs + 86400 < now.toSecs) ∧
          r = ⟨now.year, mo, d, h, mi, s⟩))) ∧
    makeTimestamp ⟨2024, 6, 10, 0, 0, 0⟩ "01" "Jun" "00:00:00" none =
      some ⟨2025, 6, 1, 0, 0, 0⟩ ∧
    makeTimestamp ⟨2024, 6, 10, 0, 0, 0⟩ "15" "Jun" "09:00:00" none =
      some ⟨2024, 6, 15, 9, 0, 0⟩ := by
  refine ⟨?_, by decide, by decide⟩
  intro now day month time mo d h mi s r hm hd ht hmk
  rw [makeTimestamp_eq hm hd ht] at hmk
  by_cases hguard : d ≤ daysInMonth now.year mo
  · rw [if_pos hguard] at hmk
    unfold resolveCore at hmk
    by_cases hcond : (DateTime.mk now.year mo d h mi s).toSecs + 86400 < now.toSecs
    · left
      rw [if_pos hcond] at hmk
      unfold yearIncr at hmk
      split_ifs at hmk
      injection hmk with hmk
      exact ⟨hcond, hmk.symm⟩
    · right
      rw [if_neg hcond] at hmk
      injection hmk with hmk
      exact ⟨hcond, hmk.symm⟩
  · rw [if_neg hguard] at hmk
    exact Option.noConfusion hmk

/-- Witness for C3 at the year-rollover example. -/
theorem C3_year_rollover_witness :
    ((DateTime.mk 2024 6 1 0 0 0).toSecs + 86400 <
        (DateTime.mk 2024 6 10 0 0 0).toSecs ∧
      (DateTime.mk 2025 6 1 0 0 0) = ⟨2024 + 1, 6, 1, 0, 0, 0⟩) ∨
    (¬ ((DateTime.mk 2024 6 1 0 0 0).toSecs + 86400 <
        (DateTime.mk 2024 6 10 0 0 0).toSecs) ∧
      (DateTime.mk 2025 6 1 0 0 0) = ⟨2024, 6, 1, 0, 0, 0⟩) :=
  C3_year_rollover.1 ⟨2024, 6, 10, 0, 0, 0⟩ "01" "Jun" "00:00:00" 6 1 0 0 0
    ⟨2025, 6, 1, 0, 0, 0⟩ (by decide) (by decide) (by decide) (by decide)

/-- C1 (amended): when an anchor is supplied, the result of `resolve`
is `≥ anchor` provided the constructed naive timestamp is at most one
day before the anchor.  (The claim's unconditional form is false: the
correction adds exactly one day, so an anchor further ahead is not
reached — see the counterexample.) -/
theorem C1_anchor_bound :
    ∀ (now : DateTime) (day month time : String) (anchor : DateTime)
      (mo d h mi s : Nat) (r : DateTime),
      monthFromAbbrev month = some mo → parseDay day = some d →
      parseTime time = some (h, mi, s) →
      1 ≤ now.year →
      anchor.toSecs ≤ (DateTime.mk now.year mo d h mi s).toSecs + 86400 →
      makeTimestamp now day month time (some anchor) = some r →
      anchor.toSecs ≤ r.toSecs := by
  intro now day month time anchor mo d h mi s r hm hd ht hy hnear hmk
  rw [makeTimestamp_eq hm hd ht] at hmk
  by_cases hguard : d ≤ daysInMonth now.year mo
  swap
  · rw [if_neg hguard] at hmk
    exact Option.noConfusion hmk
  rw [if_pos hguard] at hmk
  simp only [resolveCore] at hmk
  obtain ⟨hmo1, hmo2⟩ := monthFromAbbrev_range hm
  obtain ⟨hd1, _⟩ := parseDay_range hd
  by_cases hlt : (DateTime.mk now.year mo d h mi s).toSecs < anchor.toSecs
  · rw [if_pos hlt] at hmk
    rw [← Option.some.inj hmk]
    rw [toSecs_addDay ⟨now.year, mo, d, h, mi, s⟩ hy hmo1 hmo2 hd1 hguard]
    exact hnear
  · rw [if_neg hlt] at hmk
    by_cases hold : (DateTime.mk now.year mo d h mi s).toSecs + 86400 < now.toSecs
    · rw [if_pos hold] at hmk
      have := toSecs_yearIncr ⟨now.year, mo, d, h, mi, s⟩ r hy hmo1 hmo2 hmk
      omega
    · rw [if_neg hold] at hmk
      rw [← Option.some.inj hmk]
      omega

/-- Witness for C1 at a concrete midnight-crossing anchor. -/
theorem C1_anchor_bound_witness :
    (DateTime.mk 2024 6 11 0 0 0).toSecs ≤ (DateTime.mk 2024 6 11 23 58 0).toSecs :=
  C1_anchor_bound ⟨2024, 6, 10, 0, 0, 0⟩ "10" "Jun" "23:58:00" ⟨2024, 6, 11, 0, 0, 0⟩
    6 10 23 58 0 ⟨2024, 6, 11, 23, 58, 0⟩ (by decide) (by decide) (by decide)
    (by decide) (by decide) (by decide)

/-- C1 counterexample: with an anchor two days past the constructed
timestamp, `resolve` adds only one day and returns a value strictly
earlier than the anchor, contradicting the unconditional claim. -/
theorem C1_counterexample :
    makeTimestamp ⟨2024, 6, 10, 0, 0, 0⟩ "01" "Jun" "00:00:00"
        (some ⟨2024, 6, 3, 0, 0, 0⟩) = some ⟨2024, 6, 2, 0, 0, 0⟩ ∧
    (DateTime.mk 2024 6 2 0 0 0).toSecs < (DateTime.mk 2024 6 3 0 0 0).toSecs :=
  ⟨by decide, by decide⟩

/-- C6 (amended): `resolve` fails when the month is not a recognized
3-letter abbreviation or the time does not parse as `HH:MM:SS`, and
succeeds for recognized months and three-group times whenever the day
is valid for the month in the current and following year; a summary
time given as `HH:MM` without seconds is *rejected* (the original
claim's "seconds assumed 0" does not hold — see the counterexample). -/
theorem C6_format_failures :
    (∀ (now : DateTime) (day month time : String) (nt : Option DateTime),
      monthFromAbbrev month = none → makeTimestamp now day month time nt = none) ∧
    (∀ (now : DateTime) (day month time : String) (nt : Option DateTime),
      parseTime time = none → makeTimestamp now day month time nt = none) ∧
    (∀ (now : DateTime) (day month time : String) (nt : Option DateTime)
       (mo d h mi s : Nat),
      monthFromAbbrev month = some mo → parseDay day = some d →
      parseTime time = some (h, mi, s) →
      d ≤ daysInMonth now.year mo → d ≤ daysInMonth (now.year + 1) mo →
      ∃ r, makeTimestamp now day month time nt = some r) ∧
    parseTime "09:00" = none := by
  refine ⟨?_, ?_, ?_, by decide⟩
  · intro now day month time nt hm
    exact makeTimestamp_none_month hm
  · intro now day month time nt ht
    exact makeTimestamp_none_time ht
  · intro now day month time nt mo d h mi s hm hd ht hg hg2
    rw [makeTimestamp_eq hm hd ht]
    rw [if_pos hg]
    cases nt with
    | none =>
      simp only [resolveCore, yearIncr]
      split_ifs
      all_goals exact ⟨_, rfl⟩
    | some anchor =>
      simp only [resolveCore, yearIncr]
      split_ifs
      all_goals exact ⟨_, rfl⟩

/-- Witness for C6: a valid fragment resolves, an unrecognized month
fails. -/
theorem C6_format_failures_witness :
    (∃ r, makeTimestamp ⟨2024, 6, 10, 0, 0, 0⟩ "15" "Jun" "09:00:00" none = some r) ∧
    makeTimestamp ⟨2024, 6, 10, 0, 0, 0⟩ "15" "Juneteenth" "09:00:00" none = none :=
  ⟨C6_format_failures.2.2.1 ⟨2024, 6, 10, 0, 0, 0⟩ "15" "Jun" "09:00:00" none
      6 15 9 0 0 (by decide) (by decide) (by decide) (by decide) (by decide),
    C6_format_failures.1 ⟨2024, 6, 10, 0, 0, 0⟩ "15" "Juneteenth" "09:00:00" none
      (by decide)⟩

/-- C6 counterexample: the claim asserts an `HH:MM` summary time is
accepted with seconds 0; the code's format string demands `HH:MM:SS`,
so `09:00` fails to resolve at all. -/
theorem C6_counterexample :
    makeTimestamp ⟨2024, 6, 10, 0, 0, 0⟩ "15" "Jun" "09:00" none = none ∧
    ¬ (makeTimestamp ⟨2024, 6, 10, 0, 0, 0⟩ "15" "Jun" "09:00" none =
        some ⟨2024, 6, 15, 9, 0, 0⟩) :=
  ⟨by decide, by decide⟩

/-- C2 (amended): the summary chain `starts → highest → ends` is
monotone, `starts ≤ highest ≤ ends`, provided (i) the no-anchor
resolution of `starts` does not take the year-increment branch (its
naive timestamp is at most one day before `reference_now`) and (ii) the
times are not doubly reversed (`start ≤ highest` or `highest ≤ end` as
times of day).  Without guard (i) the claim is false — the year
rollover on `starts` leaves `highest` a year behind (see the
counterexample).  The concrete midnight-crossing example of the claim
holds: `23:58:00 / 00:02:00 / 00:05:00` puts `highest` and `ends` one
calendar day after `starts`. -/
theorem C2_chain_monotone :
    (∀ (now : DateTime) (day month ts th te : String)
       (mo d ha ma sa hb mb sb hc mc sc : Nat) (st hi en : DateTime),
      monthFromAbbrev month = some mo → parseDay day = some d →
      parseTime ts = some (ha, ma, sa) → parseTime th = some (hb, mb, sb) →
      parseTime te = some (hc, mc, sc) →
      1 ≤ now.year →
      now.toSecs ≤ (DateTime.mk now.year mo d ha ma sa).toSecs + 86400 →
      (ha * 3600 + ma * 60 + sa ≤ hb * 3600 + mb * 60 + sb ∨
        hb * 3600 + mb * 60 + sb ≤ hc * 3600 + mc * 60 + sc) →
      summaryChain now day month ts th te = some (st, hi, en) →
      st.toSecs ≤ hi.toSecs ∧ hi.toSecs ≤ en.toSecs) ∧
    summaryChain ⟨2024, 6, 10, 0, 0, 0⟩ "10" "Jun" "23:58:00" "00:02:00" "00:05:00" =
      some (⟨2024, 6, 10, 23, 58, 0⟩, ⟨2024, 6, 11, 0, 2, 0⟩, ⟨2024, 6, 11, 0, 5, 0⟩) := by
  refine ⟨?_, by decide⟩
  intro now day month ts th te mo d ha ma sa hb mb sb hc mc sc st hi en
    hm hd hta htb htc hy hnear hdisj hchain
  obtain ⟨hmo1, hmo2⟩ := monthFromAbbrev_range hm
  obtain ⟨hd1, _hd31⟩ := parseDay_range hd
  obtain ⟨hra1, hra2, hra3⟩ := parseTime_range hta
  obtain ⟨hrb1, hrb2, hrb3⟩ := parseTime_range htb
  obtain ⟨hrc1, hrc2, hrc3⟩ := parseTime_range htc
  have Ta : (DateTime.mk now.year mo d ha ma sa).toSecs =
      (daysBeforeYear now.year + daysBeforeMonth now.year mo + (d - 1)) * 86400 +
        ha * 3600 + ma * 60 + sa := rfl
  have Tb : (DateTime.mk now.year mo d hb mb sb).toSecs =
      (daysBeforeYear now.year + daysBeforeMonth now.year mo + (d - 1)) * 86400 +
        hb * 3600 + mb * 60 + sb := rfl
  have Tc : (DateTime.mk now.year mo d hc mc sc).toSecs =
      (daysBeforeYear now.year + daysBeforeMonth now.year mo + (d - 1)) * 86400 +
        hc * 3600 + mc * 60 + sc := rfl
  unfold summaryChain at hchain
  cases e1 : makeTimestamp now day month ts none with
  | none => simp only [e1] at hchain; exact Option.noConfusion hchain
  | some st' =>
  simp only [e1] at hchain
  cases e2 : makeTimestamp now day month th (some st') with
  | none => simp only [e2] at hchain; exact Option.noConfusion hchain
  | some hi' =>
  simp only [e2] at hchain
  cases e3 : makeTimestamp now day month te (some hi') with
  | none => simp only [e3] at hchain; exact Option.noConfusion hchain
  | some en' =>
  simp only [e3] at hchain
  have hpack := Option.some.inj hchain
  simp only [Prod.mk.injEq] at hpack
  obtain ⟨rfl, rfl, rfl⟩ := hpack
  -- starts: the no-anchor branch returns the naive candidate under (i)
  rw [makeTimestamp_eq hm hd hta none] at e1
  by_cases hg : d ≤ daysInMonth now.year mo
  swap
  · rw [if_neg hg] at e1
    exact Option.noConfusion e1
  rw [if_pos hg] at e1
  simp only [resolveCore] at e1
  rw [if_neg (by omega :
    ¬ ((DateTime.mk now.year mo d ha ma sa).toSecs + 86400 < now.toSecs))] at e1
  have hst := Option.some.inj e1
  subst hst
  -- highest: anchored on starts
  rw [makeTimestamp_eq hm hd htb (some _), if_pos hg] at e2
  simp only [resolveCore] at e2
  have haddb := toSecs_addDay ⟨now.year, mo, d, hb, mb, sb⟩ hy hmo1 hmo2 hd1 hg
  have haddc := toSecs_addDay ⟨now.year, mo, d, hc, mc, sc⟩ hy hmo1 hmo2 hd1 hg
  rw [makeTimestamp_eq hm hd htc (some _), if_pos hg] at e3
  simp only [resolveCore] at e3
  by_cases hlt2 : (DateTime.mk now.year mo d hb mb sb).toSecs <
      (DateTime.mk now.year mo d ha ma sa).toSecs
  · -- highest crossed midnight: one day was added
    rw [if_pos hlt2] at e2
    have hhi : hi'.toSecs = (DateTime.mk now.year mo d hb mb sb).toSecs + 86400 := by
      rw [← Option.some.inj e2]
      exact haddb
    by_cases hlt3 : (DateTime.mk now.year mo d hc mc sc).toSecs < hi'.toSecs
    · rw [if_pos hlt3] at e3
      have hen : en'.toSecs = (DateTime.mk now.year mo d hc mc sc).toSecs + 86400 := by
        rw [← Option.some.inj e3]
        exact haddc
      constructor
      · omega
      · omega
    · rw [if_neg hlt3, if_neg (by omega :
        ¬ ((DateTime.mk now.year mo d hc mc sc).toSecs + 86400 < now.toSecs))] at e3
      have hen : en'.toSecs = (DateTime.mk now.year mo d hc mc sc).toSecs := by
        rw [← Option.some.inj e3]
      constructor
      · omega
      · omega
  · -- highest did not cross midnight
    rw [if_neg hlt2, if_neg (by omega :
      ¬ ((DateTime.mk now.year mo d hb mb sb).toSecs + 86400 < now.toSecs))] at e2
    have hhi : hi'.toSecs = (DateTime.mk now.year mo d hb mb sb).toSecs := by
      rw [← Option.some.inj e2]
    by_cases hlt3 : (DateTime.mk now.year mo d hc mc sc).toSecs < hi'.toSecs
    · rw [if_pos hlt3] at e3
      have hen : en'.toSecs = (DateTime.mk now.year mo d hc mc sc).toSecs + 86400 := by
        rw [← Option.some.inj e3]
        exact haddc
      constructor
      · omega
      · omega
    · rw [if_neg hlt3, if_neg (by omega :
        ¬ ((DateTime.mk now.year mo d hc mc sc).toSecs + 86400 < now.toSecs))] at e3
      have hen : en'.toSecs = (DateTime.mk now.year mo d hc mc sc).toSecs := by
        rw [← Option.some.inj e3]
      constructor
      · omega
      · omega

/-- Witness for C2 at the claim's own midnight-crossing example. -/
theorem C2_chain_monotone_witness :
    (DateTime.mk 2024 6 10 23 58 0).toSecs ≤ (DateTime.mk 2024 6 11 0 2 0).toSecs ∧
    (DateTime.mk 2024 6 11 0 2 0).toSecs ≤ (DateTime.mk 2024 6 11 0 5 0).toSecs :=
  C2_chain_monotone.1 ⟨2024, 6, 10, 0, 0, 0⟩ "10" "Jun" "23:58:00" "00:02:00" "00:05:00"
    6 10 23 58 0 0 2 0 0 5 0 ⟨2024, 6, 10, 23, 58, 0⟩ ⟨2024, 6, 11, 0, 2, 0⟩
    ⟨2024, 6, 11, 0, 5, 0⟩ (by decide) (by decide) (by decide) (by decide) (by decide)
    (by decide) (by decide) (Or.inr (by decide)) (by decide)

/-- C2 counterexample: when the year-rollover branch fires on `starts`
(`reference_now = 2024-06-10`, nominal day `01 Jun`), the chain is not
monotone — `highest` lands a year before `starts`. -/
theorem C2_counterexample :
    summaryChain ⟨2024, 6, 10, 0, 0, 0⟩ "01" "Jun" "23:58:00" "00:02:00" "00:05:00" =
      some (⟨2025, 6, 1, 23, 58, 0⟩, ⟨2024, 6, 2, 0, 2, 0⟩, ⟨2024, 6, 2, 0, 5, 0⟩) ∧
    (DateTime.mk 2024 6 2 0 2 0).toSecs < (DateTime.mk 2025 6 1 23 58 0).toSecs :=
  ⟨by decide, by decide⟩

/-- C10: a successful `get_details` run leaves timestamp, altitude and
direction of the pre-existing `starts`, `highest` and `ends` records
unchanged (only the four extended attributes are assigned). -/
theorem C10_frame_preserved :
    ∀ (p : Pass) (r1 r2 r3 r4 r5 : DetailRow) (q : Pass),
      getDetails p r1 r2 r3 r4 r5 = (q, true) →
      (q.starts.timestamp = p.starts.timestamp ∧ q.starts.altitude = p.starts.altitude ∧
        q.starts.direction = p.starts.direction) ∧
      (q.highest.timestamp = p.highest.timestamp ∧ q.highest.altitude = p.highest.altitude ∧
        q.highest.direction = p.highest.direction) ∧
      (q.ends.timestamp = p.ends.timestamp ∧ q.ends.altitude = p.ends.altitude ∧
        q.ends.direction = p.ends.direction) := by
  intro p r1 r2 r3 r4 r5 q hq
  unfold getDetails at hq
  cases hc1 : parseClock r1.time with
  | none => simp only [hc1] at hq; exact Bool.noConfusion (congrArg Prod.snd hq)
  | some c1 =>
  obtain ⟨rh, rm, rs⟩ := c1
  simp only [hc1] at hq
  cases hc5 : parseClock r5.time with
  | none => simp only [hc5] at hq; exact Bool.noConfusion (congrArg Prod.snd hq)
  | some c5 =>
  obtain ⟨sh, sm, ss⟩ := c5
  simp only [hc5] at hq
  cases hs1 : searchDir r1.dir with
  | none => simp only [hs1] at hq; exact Bool.noConfusion (congrArg Prod.snd hq)
  | some pr1 =>
  obtain ⟨rdeg, rdir⟩ := pr1
  simp only [hs1] at hq
  cases hs2 : searchDir r2.dir with
  | none => simp only [hs2] at hq; exact Bool.noConfusion (congrArg Prod.snd hq)
  | some pr2 =>
  obtain ⟨sdeg, sdir⟩ := pr2
  simp only [hs2] at hq
  cases hs3 : searchDir r3.dir with
  | none => simp only [hs3] at hq; exact Bool.noConfusion (congrArg Prod.snd hq)
  | some pr3 =>
  obtain ⟨hdeg, hdir⟩ := pr3
  simp only [hs3] at hq
  cases hs4 : searchDir r4.dir with
  | none => simp only [hs4] at hq; exact Bool.noConfusion (congrArg Prod.snd hq)
  | some pr4 =>
  obtain ⟨edeg, edir⟩ := pr4
  simp only [hs4] at hq
  cases hs5 : searchDir r5.dir with
  | none => simp only [hs5] at hq; exact Bool.noConfusion (congrArg Prod.snd hq)
  | some pr5 =>
  obtain ⟨tdeg, tdir⟩ := pr5
  simp only [hs5] at hq
  rw [Prod.mk.injEq] at hq
  obtain ⟨hq1, _⟩ := hq
  subst hq1
  exact ⟨⟨rfl, rfl, rfl⟩, ⟨rfl, rfl, rfl⟩, rfl, rfl, rfl⟩

/-- Witness for C10 on a concrete successful enrichment. -/
theorem C10_frame_preserved_witness :
    ((getDetails samplePass (sampleRow "20:58:32") (sampleRow "21:00:00")
        (sampleRow "21:03:30") (sampleRow "21:06:45") (sampleRow "21:08:00")).1.starts.timestamp =
      samplePass.starts.timestamp ∧
     (getDetails samplePass (sampleRow "20:58:32") (sampleRow "21:00:00")
        (sampleRow "21:03:30") (sampleRow "21:06:45") (sampleRow "21:08:00")).1.starts.altitude =
      samplePass.starts.altitude ∧
     (getDetails samplePass (sampleRow "20:58:32") (sampleRow "21:00:00")
        (sampleRow "21:03:30") (sampleRow "21:06:45") (sampleRow "21:08:00")).1.starts.direction =
      samplePass.starts.direction) ∧
    ((getDetails samplePass (sampleRow "20:58:32") (sampleRow "21:00:00")
        (sampleRow "21:03:30") (sampleRow "21:06:45") (sampleRow "21:08:00")).1.highest.timestamp =
      samplePass.highest.timestamp ∧
     (getDetails samplePass (sampleRow "20:58:32") (sampleRow "21:00:00")
        (sampleRow "21:03:30") (sampleRow "21:06:45") (sampleRow "21:08:00")).1.highest.altitude =
      samplePass.highest.altitude ∧
     (getDetails samplePass (sampleRow "20:58:32") (sampleRow "21:00:00")
        (sampleRow "21:03:30") (sampleRow "21:06:45") (sampleRow "21:08:00")).1.highest.direction =
      samplePass.highest.direction) ∧
    ((getDetails samplePass (sampleRow "20:58:32") (sampleRow "21:00:00")
        (sampleRow "21:03:30") (sampleRow "21:06:45") (sampleRow "21:08:00")).1.ends.timestamp =
      samplePass.ends.timestamp ∧
     (getDetails samplePass (sampleRow "20:58:32") (sampleRow "21:00:00")
        (sampleRow "21:03:30") (sampleRow "21:06:45") (sampleRow "21:08:00")).1.ends.altitude =
      samplePass.ends.altitude ∧
     (getDetails samplePass (sampleRow "20:58:32") (sampleRow "21:00:00")
        (sampleRow "21:03:30") (sampleRow "21:06:45") (sampleRow "21:08:00")).1.ends.direction =
      samplePass.ends.direction) :=
  C10_frame_preserved samplePass (sampleRow "20:58:32") (sampleRow "21:00:00")
    (sampleRow "21:03:30") (sampleRow "21:06:45") (sampleRow "21:08:00")
    (getDetails samplePass (sampleRow "20:58:32") (sampleRow "21:00:00")
      (sampleRow "21:03:30") (sampleRow "21:06:45") (sampleRow "21:08:00")).1
    (by decide)

/-- C9: on a successful `get_details` run the rise and set timestamps
are seeded from the date of `starts` combined with the detail
time-of-day (`replace` keeps the date portion: first conjunct), the
rise candidate has one day added exactly when it exceeds `starts`, and
the set candidate has one day subtracted exactly when it is below
`ends`; otherwise each candidate is kept unchanged. -/
theorem C9_rise_set_corrections :
    ∀ (p : Pass) (r1 r2 r3 r4 r5 : DetailRow) (q : Pass) (rh rm rs sh sm ss : Nat),
      getDetails p r1 r2 r3 r4 r5 = (q, true) →
      parseClock r1.time = some (rh, rm, rs) →
      parseClock r5.time = some (sh, sm, ss) →
      2 ≤ p.starts.timestamp.year →
      1 ≤ p.starts.timestamp.month → p.starts.timestamp.month ≤ 12 →
      1 ≤ p.starts.timestamp.day →
      p.starts.timestamp.day ≤ daysInMonth p.starts.timestamp.year p.starts.timestamp.month →
      ((replaceTime p.starts.timestamp rh rm rs).toSecs =
        p.starts.timestamp.toDays * 86400 + rh * 3600 + rm * 60 + rs) ∧
      (∃ rp, q.rises = some rp ∧
        (p.starts.timestamp.toSecs < (replaceTime p.starts.timestamp rh rm rs).toSecs →
          rp.timestamp.toSecs = (replaceTime p.starts.timestamp rh rm rs).toSecs + 86400) ∧
        (¬ p.starts.timestamp.toSecs < (replaceTime p.starts.timestamp rh rm rs).toSecs →
          rp.timestamp = replaceTime p.starts.timestamp rh rm rs)) ∧
      (∃ sp, q.sets = some sp ∧
        ((replaceTime p.starts.timestamp sh sm ss).toSecs < p.ends.timestamp.toSecs →
          sp.timestamp.toSecs + 86400 = (replaceTime p.starts.timestamp sh sm ss).toSecs) ∧
        (¬ (replaceTime p.starts.timestamp sh sm ss).toSecs < p.ends.timestamp.toSecs →
          sp.timestamp = replaceTime p.starts.timestamp sh sm ss)) := by
  intro p r1 r2 r3 r4 r5 q rh rm rs sh sm ss hq hc1 hc5 hy hm1 hm2 hd1 hd2
  have hy1 : 1 ≤ p.starts.timestamp.year := by omega
  unfold getDetails at hq
  simp only [hc1, hc5] at hq
  cases hs1 : searchDir r1.dir with
  | none => simp only [hs1] at hq; exact Bool.noConfusion (congrArg Prod.snd hq)
  | some pr1 =>
  obtain ⟨rdeg, rdir⟩ := pr1
  simp only [hs1] at hq
  cases hs2 : searchDir r2.dir with
  | none => simp only [hs2] at hq; exact Bool.noConfusion (congrArg Prod.snd hq)
  | some pr2 =>
  obtain ⟨sdeg, sdir⟩ := pr2
  simp only [hs2] at hq
  cases hs3 : searchDir r3.dir with
  | none => simp only [hs3] at hq; exact Bool.noConfusion (congrArg Prod.snd hq)
  | some pr3 =>
  obtain ⟨hdeg, hdir⟩ := pr3
  simp only [hs3] at hq
  cases hs4 : searchDir r4.dir with
  | none => simp only [hs4] at hq; exact Bool.noConfusion (congrArg Prod.snd hq)
  | some pr4 =>
  obtain ⟨edeg, edir⟩ := pr4
  simp only [hs4] at hq
  cases hs5 : searchDir r5.dir with
  | none => simp only [hs5] at hq; exact Bool.noConfusion (congrArg Prod.snd hq)
  | some pr5 =>
  obtain ⟨tdeg, tdir⟩ := pr5
  simp only [hs5] at hq
  rw [Prod.mk.injEq] at hq
  obtain ⟨hq1, _⟩ := hq
  subst hq1
  refine ⟨rfl, ⟨_, rfl, ?_, ?_⟩, ⟨_, rfl, ?_, ?_⟩⟩
  · intro hcnd
    simp only [newDetailPosition]
    rw [if_pos hcnd]
    exact toSecs_addDay (replaceTime p.starts.timestamp rh rm rs) hy1 hm1 hm2 hd1 hd2
  · intro hcnd
    simp only [newDetailPosition]
    rw [if_neg hcnd]
  · intro hcnd
    simp only [newDetailPosition]
    rw [if_pos hcnd]
    exact toSecs_subDay (replaceTime p.starts.timestamp sh sm ss) hy hm1 hm2 hd1 hd2
  · intro hcnd
    simp only [newDetailPosition]
    rw [if_neg hcnd]

/-- Witness for C9 on a concrete enrichment where the rise candidate
exceeds `starts` (so a day is added) and the set candidate is below
`ends` (so a day is subtracted). -/
theorem C9_rise_set_corrections_witness :
    ((replaceTime midnightPass.starts.timestamp 23 58 0).toSecs =
      midnightPass.starts.timestamp.toDays * 86400 + 23 * 3600 + 58 * 60 + 0) ∧
    (∃ rp, (getDetails midnightPass (sampleRow "23:58:00") (sampleRow "00:02:00")
        (sampleRow "00:04:00") (sampleRow "00:06:00") (sampleRow "00:01:00")).1.rises =
        some rp ∧
      (midnightPass.starts.timestamp.toSecs <
          (replaceTime midnightPass.starts.timestamp 23 58 0).toSecs →
        rp.timestamp.toSecs =
          (replaceTime midnightPass.starts.timestamp 23 58 0).toSecs + 86400) ∧
      (¬ midnightPass.starts.timestamp.toSecs <
          (replaceTime midnightPass.starts.timestamp 23 58 0).toSecs →
        rp.timestamp = replaceTime midnightPass.starts.timestamp 23 58 0)) ∧
    (∃ sp, (getDetails midnightPass (sampleRow "23:58:00") (sampleRow "00:02:00")
        (sampleRow "00:04:00") (sampleRow "00:06:00") (sampleRow "00:01:00")).1.sets =
        some sp ∧
      ((replaceTime midnightPass.starts.timestamp 0 1 0).toSecs <
          midnightPass.ends.timestamp.toSecs →
        sp.timestamp.toSecs + 86400 =
          (replaceTime midnightPass.starts.timestamp 0 1 0).toSecs) ∧
      (¬ (replaceTime midnightPass.starts.timestamp 0 1 0).toSecs <
          midnightPass.ends.timestamp.toSecs →
        sp.timestamp = replaceTime midnightPass.starts.timestamp 0 1 0)) :=
  C9_rise_set_corrections midnightPass (sampleRow "23:58:00") (sampleRow "00:02:00")
    (sampleRow "00:04:00") (sampleRow "00:06:00") (sampleRow "00:01:00")
    (getDetails midnightPass (sampleRow "23:58:00") (sampleRow "00:02:00")
      (sampleRow "00:04:00") (sampleRow "00:06:00") (sampleRow "00:01:00")).1
    23 58 0 0 1 0 (by decide) (by decide) (by decide) (by decide) (by decide)
    (by decide) (by decide) (by decide)

/-- C5 (amended): enrichment is not atomic.  A failure before the
first assignment — an unparsable rise/set time or a rises-row azimuth
that matches nothing — leaves the pass unchanged; but a failure on a
later row retains the mutations already performed: after a starts-row
parse failure the freshly built rises record remains in the pass. -/
theorem C5_enrichment_not_atomic :
    (∀ (p : Pass) (r1 r2 r3 r4 r5 : DetailRow),
      parseClock r1.time = none → getDetails p r1 r2 r3 r4 r5 = (p, false)) ∧
    (∀ (p : Pass) (r1 r2 r3 r4 r5 : DetailRow) (rh rm rs : Nat),
      parseClock r1.time = some (rh, rm, rs) → parseClock r5.time = none →
      getDetails p r1 r2 r3 r4 r5 = (p, false)) ∧
    (∀ (p : Pass) (r1 r2 r3 r4 r5 : DetailRow) (rh rm rs sh sm ss : Nat),
      parseClock r1.time = some (rh, rm, rs) → parseClock r5.time = some (sh, sm, ss) →
      searchDir r1.dir = none → getDetails p r1 r2 r3 r4 r5 = (p, false)) ∧
    ((getDetails samplePass (sampleRow "20:58:32") badRow (sampleRow "21:03:30")
        (sampleRow "21:06:45") (sampleRow "21:08:00")).2 = false ∧
      (getDetails samplePass (sampleRow "20:58:32") badRow (sampleRow "21:03:30")
        (sampleRow "21:06:45") (sampleRow "21:08:00")).1.rises ≠ samplePass.rises) := by
  refine ⟨?_, ?_, ?_, by decide, by decide⟩
  · intro p r1 r2 r3 r4 r5 h
    unfold getDetails
    rw [h]
  · intro p r1 r2 r3 r4 r5 rh rm rs h1 h5
    unfold getDetails
    rw [h1, h5]
  · intro p r1 r2 r3 r4 r5 rh rm rs sh sm ss h1 h5 hs
    unfold getDetails
    rw [h1, h5]
    simp only [hs]

/-- Witness for C5: a two-group rise time aborts before any mutation,
returning the pass unchanged. -/
theorem C5_enrichment_not_atomic_witness :
    getDetails samplePass (sampleRow "21:02") (sampleRow "21:00:00") (sampleRow "21:03:30")
      (sampleRow "21:06:45") (sampleRow "21:08:00") = (samplePass, false) :=
  C5_enrichment_not_atomic.1 samplePass (sampleRow "21:02") (sampleRow "21:00:00")
    (sampleRow "21:03:30") (sampleRow "21:06:45") (sampleRow "21:08:00") (by decide)

/-- C5 counterexample: a starts-row parse failure aborts enrichment,
yet the pass state afterward differs from the pre-enrichment state —
the new rises record has already been assigned. -/
theorem C5_counterexample :
    (getDetails samplePass (sampleRow "20:58:32") badRow (sampleRow "21:03:30")
        (sampleRow "21:06:45") (sampleRow "21:08:00")).2 = false ∧
    (getDetails samplePass (sampleRow "20:58:32") badRow (sampleRow "21:03:30")
        (sampleRow "21:06:45") (sampleRow "21:08:00")).1 ≠ samplePass :=
  ⟨by decide, by decide⟩

/-- C7 (amended): distance extraction strips every character that is
not a decimal digit (minus signs and decimal points are removed as
well) and stores the remaining digit string without numeric
conversion; `"1,234 km"` yields `"1234"`, and the result is always a
pure digit string (hence never negative). -/
theorem C7_distance_strip :
    (∀ (p : Pass) (r1 r2 r3 r4 r5 : DetailRow) (q : Pass),
      getDetails p r1 r2 r3 r4 r5 = (q, true) →
      ∃ rp, q.rises = some rp ∧ rp.distance = some (stripNonDigits r1.dist)) ∧
    (∀ s : String, (stripNonDigits s).toList.all Char.isDigit = true) ∧
    stripNonDigits "1,234 km" = "1234" := by
  refine ⟨?_, ?_, by decide⟩
  · intro p r1 r2 r3 r4 r5 q hq
    unfold getDetails at hq
    cases hc1 : parseClock r1.time with
    | none => simp only [hc1] at hq; exact Bool.noConfusion (congrArg Prod.snd hq)
    | some c1 =>
    obtain ⟨rh, rm, rs⟩ := c1
    simp only [hc1] at hq
    cases hc5 : parseClock r5.time with
    | none => simp only [hc5] at hq; exact Bool.noConfusion (congrArg Prod.snd hq)
    | some c5 =>
    obtain ⟨sh, sm, ss⟩ := c5
    simp only [hc5] at hq
    cases hs1 : searchDir r1.dir with
    | none => simp only [hs1] at hq; exact Bool.noConfusion (congrArg Prod.snd hq)
    | some pr1 =>
    obtain ⟨rdeg, rdir⟩ := pr1
    simp only [hs1] at hq
    cases hs2 : searchDir r2.dir with
    | none => simp only [hs2] at hq; exact Bool.noConfusion (congrArg Prod.snd hq)
    | some pr2 =>
    obtain ⟨sdeg, sdir⟩ := pr2
    simp only [hs2] at hq
    cases hs3 : searchDir r3.dir with
    | none => simp only [hs3] at hq; exact Bool.noConfusion (congrArg Prod.snd hq)
    | some pr3 =>
    obtain ⟨hdeg, hdir⟩ := pr3
    simp only [hs3] at hq
    cases hs4 : searchDir r4.dir with
    | none => simp only [hs4] at hq; exact Bool.noConfusion (congrArg Prod.snd hq)
    | some pr4 =>
    obtain ⟨edeg, edir⟩ := pr4
    simp only [hs4] at hq
    cases hs5 : searchDir r5.dir with
    | none => simp only [hs5] at hq; exact Bool.noConfusion (congrArg Prod.snd hq)
    | some pr5 =>
    obtain ⟨tdeg, tdir⟩ := pr5
    simp only [hs5] at hq
    rw [Prod.mk.injEq] at hq
    obtain ⟨hq1, _⟩ := hq
    subst hq1
    exact ⟨_, rfl, rfl⟩
  · intro s
    simp only [stripNonDigits, List.all_eq_true]
    intro c hc
    exact (List.mem_filter.mp hc).2

/-- Witness for C7 on a concrete enrichment: the stored distance is
the digit string stripped from the raw cell. -/
theorem C7_distance_strip_witness :
    (∃ rp, (getDetails samplePass (sampleRow "20:58:32") (sampleRow "21:00:00")
        (sampleRow "21:03:30") (sampleRow "21:06:45") (sampleRow "21:08:00")).1.rises =
        some rp ∧ rp.distance = some (stripNonDigits "1,234 km")) ∧
    (stripNonDigits "abc-1.5 km").toList.all Char.isDigit = true :=
  ⟨C7_distance_strip.1 samplePass (sampleRow "20:58:32") (sampleRow "21:00:00")
      (sampleRow "21:03:30") (sampleRow "21:06:45") (sampleRow "21:08:00")
      (getDetails samplePass (sampleRow "20:58:32") (sampleRow "21:00:00")
        (sampleRow "21:03:30") (sampleRow "21:06:45") (sampleRow "21:08:00")).1 (by decide),
    C7_distance_strip.2.1 "abc-1.5 km"⟩

/-- C7 counterexample: on `"1.5 km"` the code's digit-only strip
yields `"15"`, while the claim's rule (keep digits, minus, point, then
parse) yields `1.5` — the two disagree, so the claim misdescribes the
distance grammar. -/
theorem C7_counterexample :
    stripNonDigits "1.5 km" = "15" ∧
    specDistanceRule "1.5 km" = some ((3 : Rat) / 2) ∧
    parseDecimal (stripNonDigits "1.5 km") = some (15 : Rat) ∧
    ((3 : Rat) / 2) ≠ (15 : Rat) := by
  have h1 : stripNonDigits "1.5 km" = "15" := by decide
  have h2 : stripNonNumeric "1.5 km" = "1.5" := by decide
  refine ⟨h1, ?_, ?_, by norm_num⟩
  · unfold specDistanceRule
    rw [h2]
    simp [parseDecimal, digitsToNat]
    norm_num
  · rw [h1]
    simp [parseDecimal, digitsToNat]

/-- C8 (amended): the pass-level brightness cell `"-"` maps to absent
and other text parses as a magnitude (`"-2.3"` → `-2.3`); but an
enriched position stores the raw cell text, and its brightness
accessor raises an error on `"-"` (Python `float("-")`) instead of
reporting absent — only empty/unset text yields absent at the position
level. -/
theorem C8_brightness_absent :
    (floatAccessor (summaryBrightness "-") = Except.ok none) ∧
    (floatAccessor (summaryBrightness "-2.3") = Except.ok (some (-(23 : Rat) / 10))) ∧
    (∀ (p : Pass) (r1 r2 r3 r4 r5 : DetailRow) (q : Pass),
      getDetails p r1 r2 r3 r4 r5 = (q, true) →
      ∃ rp, q.rises = some rp ∧ rp.brightness = some r1.bright) ∧
    (floatAccessor (some "-") = Except.error ()) ∧
    (floatAccessor (some "") = Except.ok none) ∧
    (floatAccessor none = Except.ok none) := by
  have h23 : floatAccessor (summaryBrightness "-2.3") = Except.ok (some (-(23 : Rat) / 10)) := by
    have h : summaryBrightness "-2.3" = some "-2.3" := by decide
    rw [h]
    simp [floatAccessor, parseDecimal, digitsToNat]
    norm_num
  refine ⟨by decide, h23, ?_, by decide, by decide, by decide⟩
  intro p r1 r2 r3 r4 r5 q hq
  unfold getDetails at hq
  cases hc1 : parseClock r1.time with
  | none => simp only [hc1] at hq; exact Bool.noConfusion (congrArg Prod.snd hq)
  | some c1 =>
  obtain ⟨rh, rm, rs⟩ := c1
  simp only [hc1] at hq
  cases hc5 : parseClock r5.time with
  | none => simp only [hc5] at hq; exact Bool.noConfusion (congrArg Prod.snd hq)
  | some c5 =>
  obtain ⟨sh, sm, ss⟩ := c5
  simp only [hc5] at hq
  cases hs1 : searchDir r1.dir with
  | none => simp only [hs1] at hq; exact Bool.noConfusion (congrArg Prod.snd hq)
  | some pr1 =>
  obtain ⟨rdeg, rdir⟩ := pr1
  simp only [hs1] at hq
  cases hs2 : searchDir r2.dir with
  | none => simp only [hs2] at hq; exact Bool.noConfusion (congrArg Prod.snd hq)
  | some pr2 =>
  obtain ⟨sdeg, sdir⟩ := pr2
  simp only [hs2] at hq
  cases hs3 : searchDir r3.dir with
  | none => simp only [hs3] at hq; exact Bool.noConfusion (congrArg Prod.snd hq)
  | some pr3 =>
  obtain ⟨hdeg, hdir⟩ := pr3
  simp only [hs3] at hq
  cases hs4 : searchDir r4.dir with
  | none => simp only [hs4] at hq; exact Bool.noConfusion (congrArg Prod.snd hq)
  | some pr4 =>
  obtain ⟨edeg, edir⟩ := pr4
  simp only [hs4] at hq
  cases hs5 : searchDir r5.dir with
  | none => simp only [hs5] at hq; exact Bool.noConfusion (congrArg Prod.snd hq)
  | some pr5 =>
  obtain ⟨tdeg, tdir⟩ := pr5
  simp only [hs5] at hq
  rw [Prod.mk.injEq] at hq
  obtain ⟨hq1, _⟩ := hq
  subst hq1
  exact ⟨_, rfl, rfl⟩

/-- Witness for C8 on a concrete enrichment whose brightness cell is
the literal dash. -/
theorem C8_brightness_absent_witness :
    ∃ rp, (getDetails samplePass (sampleRow "20:58:32") (sampleRow "21:00:00")
        (sampleRow "21:03:30") (sampleRow "21:06:45") (sampleRow "21:08:00")).1.rises =
      some rp ∧ rp.brightness = some "-" :=
  C8_brightness_absent.2.2.1 samplePass (sampleRow "20:58:32") (sampleRow "21:00:00")
    (sampleRow "21:03:30") (sampleRow "21:06:45") (sampleRow "21:08:00")
    (getDetails samplePass (sampleRow "20:58:32") (sampleRow "21:00:00")
      (sampleRow "21:03:30") (sampleRow "21:06:45") (sampleRow "21:08:00")).1 (by decide)

/-- C8 counterexample: the enriched rises position stores the literal
dash, and the position-level brightness accessor raises on it instead
of reporting an absent value. -/
theorem C8_counterexample :
    (getDetails samplePass (sampleRow "20:58:32") (sampleRow "21:00:00")
        (sampleRow "21:03:30") (sampleRow "21:06:45") (sampleRow "21:08:00")).1.rises =
      some ⟨⟨2024, 6, 10, 20, 58, 32⟩, 0, "NNE", some "123", some "1234", some "-",
        some "-12.3"⟩ ∧
    floatAccessor (some "-") = Except.error () :=
  ⟨by decide, by decide⟩

/-- C4: the five-point ordering `rises ≤ starts ≤ highest ≤ ends ≤ sets`
is broken by the detail-phase day corrections.  On a pass that starts
just after midnight with a rise time just before midnight, the code
*adds* a day to the rise candidate (its own comment says it should
ensure `rises` is before `starts`), landing `rises` a day after
`starts`; symmetrically the set candidate gets a day *subtracted* and
lands before `ends`.  This evaluates the code at that failing input. -/
theorem C4_ordering_broken :
    (getDetails midnightPass (sampleRow "23:58:00") (sampleRow "00:02:00")
        (sampleRow "00:04:00") (sampleRow "00:06:00") (sampleRow "00:01:00")).2 = true ∧
    (getDetails midnightPass (sampleRow "23:58:00") (sampleRow "00:02:00")
        (sampleRow "00:04:00") (sampleRow "00:06:00") (sampleRow "00:01:00")).1.rises =
      some ⟨⟨2024, 6, 11, 23, 58, 0⟩, 0, "NNE", some "123", some "1234", some "-",
        some "-12.3"⟩ ∧
    (getDetails midnightPass (sampleRow "23:58:00") (sampleRow "00:02:00")
        (sampleRow "00:04:00") (sampleRow "00:06:00") (sampleRow "00:01:00")).1.sets =
      some ⟨⟨2024, 6, 9, 0, 1, 0⟩, 0, "NNE", some "123", some "1234", some "-",
        some "-12.3"⟩ ∧
    midnightPass.starts.timestamp.toSecs < (DateTime.mk 2024 6 11 23 58 0).toSecs ∧
    (DateTime.mk 2024 6 9 0 1 0).toSecs < midnightPass.ends.timestamp.toSecs :=
  ⟨by decide, by decide, by decide, by decide, by decide⟩

end HeavensAbove
